import Mathlib

/-!
Shallow embedding of the wheel builder of the poetry masonry package
(src/poetry/masonry/builders/wheel.py) together with the sdist dependency
projection exercised by src/tests/masonry/builders/test_sdist.py, and proofs
of the specification claims about them.

Bytes are modelled as natural numbers below 256, byte strings as lists of
such numbers.  The SHA-256 primitive from hashlib is an external library,
so it is taken as a parameter of the builder operations; every claim about
hashing is proved for an arbitrary digest function.
-/

/-- A byte string: the content of a file or of a zip member. -/
abbrev Bytes := List Nat

/-- One recorded manifest entry: relative path, encoded hash, size,
mirroring the tuples appended to `self._records`. -/
abbrev RecordEntry := String × String × Nat

/-- A zip timestamp, mirroring the 6-tuple `(year, month, day, hour, minute,
second)` passed to `zipfile.ZipInfo`. -/
abbrev DateTime := Nat × Nat × Nat × Nat × Nat × Nat

/-- `zipfile.ZipInfo` default timestamp when none is passed. -/
def zipDefaultDateTime : DateTime := (1980, 1, 1, 0, 0, 0)

/-- The fixed timestamp passed by `_write_to_zip`
(`date_time = (2016, 1, 1, 0, 0, 0)`). -/
def fixedDateTime : DateTime := (2016, 1, 1, 0, 0, 0)

/-- One member written into the zip container: the arguments of a
`self._wheel_zip.writestr(zinfo, data)` call. -/
structure ZipEntry where
  path : String
  dateTime : DateTime
  externalAttr : Nat
  data : Bytes
  deriving Repr, DecidableEq

/-- The mutable state of a `WheelBuilder`: the zip container contents, the
running `self._records` list, and whether the container has been closed. -/
structure BuilderState where
  entries : List ZipEntry
  records : List RecordEntry
  zipClosed : Bool
  deriving Repr, DecidableEq

/-- A fresh builder over a newly opened zip container. -/
def BuilderState.init : BuilderState :=
  { entries := [], records := [], zipClosed := false }

/-! ### UTF-8 encoding (`str.encode("utf-8")`) -/

/-- UTF-8 encoding of a single unicode code point. -/
def utf8EncodeChar (c : Char) : Bytes :=
  let n := c.toNat
  if n < 0x80 then [n]
  else if n < 0x800 then
    [0xC0 + n / 0x40, 0x80 + n % 0x40]
  else if n < 0x10000 then
    [0xE0 + n / 0x1000, 0x80 + n / 0x40 % 0x40, 0x80 + n % 0x40]
  else
    [0xF0 + n / 0x40000, 0x80 + n / 0x1000 % 0x40, 0x80 + n / 0x40 % 0x40,
      0x80 + n % 0x40]

/-- UTF-8 encoding of a string, the model of `s.encode("utf-8")`. -/
def utf8Encode (s : String) : Bytes :=
  s.data.flatMap utf8EncodeChar

/-! ### URL-safe base64 (`base64.urlsafe_b64encode`) -/

/-- The URL-safe base64 alphabet. -/
def b64Char (n : Nat) : Char :=
  if n < 26 then Char.ofNat (65 + n)
  else if n < 52 then Char.ofNat (97 + (n - 26))
  else if n < 62 then Char.ofNat (48 + (n - 52))
  else if n = 62 then Char.ofNat 45
  else Char.ofNat 95

/-- URL-safe base64 encoding of a byte string, with `=` padding. -/
def urlsafeB64Chars : Bytes → List Char
  | [] => []
  | [a] =>
    [b64Char (a / 4), b64Char (a % 4 * 16), Char.ofNat 61, Char.ofNat 61]
  | [a, b] =>
    [b64Char (a / 4), b64Char (a % 4 * 16 + b / 16), b64Char (b % 16 * 4),
      Char.ofNat 61]
  | a :: b :: c :: rest =>
    b64Char (a / 4) :: b64Char (a % 4 * 16 + b / 16) ::
      b64Char (b % 16 * 4 + c / 64) :: b64Char (c % 64) ::
      urlsafeB64Chars rest

/-- Drop trailing characters `c` from a character list,
the model of `str.rstrip`. -/
def rstripChar (c : Char) (l : List Char) : List Char :=
  ((l.reverse).dropWhile (fun x => x = c)).reverse

/-- `urlsafe_b64encode(digest).decode("ascii").rstrip("=")`. -/
def b64HashDigest (digest : Bytes) : String :=
  String.mk (rstripChar (Char.ofNat 61) (urlsafeB64Chars digest))

/-! ### hashlib as an external collaborator

`hashlib.sha256` is imported library code, not part of this repository, so
the digest function is a parameter.  The streaming interface
(`hashsum.update(buf)` in a loop) is modelled by applying the digest
function to the concatenation of the fed chunks. -/

/-- The type of the external digest primitive `hashlib.sha256(...).digest()`. -/
abbrev Digest := Bytes → Bytes

/-- Split a byte string into reads of `n + 1` bytes each: the model of the
`src.read(1024 * 8)` loop (with `n + 1 = 8192`). -/
def readChunks (n : Nat) : Bytes → List Bytes
  | [] => []
  | x :: rest => (x :: rest.take n) :: readChunks n (rest.drop n)
termination_by l => l.length
decreasing_by
  simp only [List.length_cons, List.length_drop]
  omega

/-! ### Versions and constraints

Modelled from the spec: the external version-constraint library
(`poetry.semver`) is a collaborator providing range parsing, containment
tests, and range decomposition into disjoint intervals.  A version is a
semantic-version triple ordered lexicographically; a constraint is its
decomposition into half-open ranges `[lo, hi)`. -/

/-- A semantic version triple with lexicographic order. -/
abbrev Version := ℕ ×ₗ ℕ ×ₗ ℕ

/-- Build a version from major, minor, patch components. -/
def mkVersion (major minor patch : Nat) : Version :=
  toLex (major, toLex (minor, patch))

/-- A half-open version range `[lo, hi)`. -/
abbrev VersionRange := Version × Version

/-- Modelled from the spec: a version constraint, represented by its
decomposition into disjoint half-open ranges. -/
abbrev VersionConstraint := List VersionRange

/-- A version is admitted by a constraint when some range contains it. -/
def memConstraint (v : Version) (c : VersionConstraint) : Prop :=
  ∃ r ∈ c, r.1 ≤ v ∧ v < r.2

/-- Two half-open ranges share a version exactly when the maximum of the
lower bounds is below the minimum of the upper bounds. -/
def rangeIntersects (r s : VersionRange) : Bool :=
  decide (max r.1 s.1 < min r.2 s.2)

/-- Modelled from the spec: `allows_any` of the version-constraint library,
true when the two constraints admit a common version. -/
def allows_any (c d : VersionConstraint) : Bool :=
  c.any (fun r => d.any (fun s => rangeIntersects r s))

/-- Modelled from the spec: `parse_constraint(">=2.0.0 <3.0.0")`, the
range of 2.x interpreter versions used by `supports_python2`. -/
def python2Constraint : VersionConstraint :=
  [(mkVersion 2 0 0, mkVersion 3 0 0)]

/-! ### Package and metadata state -/

/-- Python truthiness of an optional string (`None` and `""` are falsy). -/
def pyTruthy : Option String → Bool
  | none => false
  | some s => decide (s ≠ "")

/-- Model of `a or b` on an optional string: the default replaces both
`None` and the empty string. -/
def pyOr (o : Option String) (default : String) : String :=
  match o with
  | none => default
  | some s => if s = "" then default else s

/-- Model of `str(...)` applied to an optional string. -/
def pyStrOpt : Option String → String
  | none => "None"
  | some s => s

/-- The package fields read by the wheel builder: `pretty_name`, the
`build` script (`None` when the package has no native build step), and the
declared interpreter-version constraint `python_constraint`. -/
structure Package where
  name : String
  pretty_name : String
  build : Option String
  python_constraint : VersionConstraint

/-- The metadata fields (`self._meta`) read by `_write_metadata_file`. -/
structure Meta where
  name : String
  version : String
  summary : String
  home_page : Option String
  license : Option String
  keywords : Option String
  author : Option String
  author_email : Option String
  requires_python : Option String
  classifiers : List String
  provides_extra : List String
  requires_dist : List String
  description_content_type : Option String
  description : Option String
  deriving Repr

/-- The target-environment queries used by `tag` for native packages:
`get_platform`, `get_abbr_impl`, `get_impl_ver`, `get_abi_tag`. -/
structure Venv where
  platform : String
  abbr_impl : String
  impl_ver : String
  abi_tag : Option String
  deriving Repr

/-! ### Tag computation and filename normalization -/

/-- Replace every occurrence of one character by another, the model of
`str.replace` with one-character arguments. -/
def replaceChar (a b : Char) (s : String) : String :=
  String.mk (s.data.map (fun c => if c = a then b else c))

/-- ASCII lowercasing, the model of `str.lower()`. -/
def strLower (s : String) : String :=
  String.mk (s.data.map Char.toLower)

/-- `supports_python2`: whether the declared interpreter-version constraint
admits any version in `>=2.0.0 <3.0.0`. -/
def supports_python2 (pkg : Package) : Bool :=
  allows_any pkg.python_constraint python2Constraint

/-- The compatibility tag: native packages query the environment, pure
packages get the universal platform and ABI tokens and `py2.py3` or `py3`
depending on `supports_python2`. -/
def tag (venv : Venv) (pkg : Package) : String :=
  if pyTruthy pkg.build then
    let platform := replaceChar '-' '_' (replaceChar '.' '_' venv.platform)
    let impl := venv.abbr_impl ++ venv.impl_ver
    let abi_tag := strLower (pyStrOpt venv.abi_tag)
    String.intercalate "-" [impl, abi_tag, platform]
  else
    let impl := if supports_python2 pkg then "py2.py3" else "py3"
    String.intercalate "-" [impl, "none", "any"]

/-- The character class kept by the escaping regex: the complement of
`[^\w\d.]` read over ASCII, i.e. word characters (letters, digits,
underscore) and the dot. -/
def isWordOrDot (c : Char) : Bool :=
  c.isAlphanum || c = '_' || c = '.'

/-- Automaton for `re.sub("[^\w\d.]+", "_", s)`: the flag records whether
the previous character belonged to a run already replaced by `_`. -/
def collapseRuns (inRun : Bool) : List Char → List Char
  | [] => []
  | c :: rest =>
    if isWordOrDot c then c :: collapseRuns false rest
    else if inRun then collapseRuns true rest
    else '_' :: collapseRuns true rest

/-- `re.sub("[^\w\d.]+", "_", s)` as used for names and versions in
`wheel_filename` and `dist_info_name`. -/
def escapeName (s : String) : String :=
  String.mk (collapseRuns false s.data)

/-- `wheel_filename`: escaped pretty name, escaped version and tag joined
by dashes, with the `.whl` extension. -/
def wheel_filename (venv : Venv) (pkg : Package) (meta : Meta) : String :=
  escapeName pkg.pretty_name ++ "-" ++ escapeName meta.version ++ "-"
    ++ tag venv pkg ++ ".whl"

/-- `dist_info_name`: escaped distribution name and version with the
`.dist-info` suffix. -/
def dist_info_name (distribution version : String) : String :=
  escapeName distribution ++ "-" ++ escapeName version ++ ".dist-info"

/-! ### Permission normalization

Modelled from the spec: `normalize_file_permissions` lives in
`masonry/utils/helpers`, outside the shown sources.  The spec states the
mode is mapped to exactly two classes, `755` for files with the owner
executable bit and `644` otherwise, keeping the file-type bits. -/

/-- Modelled from the spec: map the permission bits of a stat mode to
`0o755` when the owner executable bit is set and `0o644` otherwise. -/
def normalize_file_permissions (st_mode : Nat) : Nat :=
  let typeBits := st_mode - st_mode % 512
  if st_mode / 64 % 2 = 1 then typeBits + 493 else typeBits + 420

/-- Model of `stat.S_ISDIR`: the file-type nibble equals `0o04`. -/
def S_ISDIR (st_mode : Nat) : Bool :=
  st_mode / 4096 % 16 = 4

/-! ### The archive writer -/

/-- `_add_file`: normalize the path separator, derive the external
attributes from the normalized stat mode, hash the content read in 8192
byte chunks, store the bytes, and record path, hash and size.  The zip
entry keeps the `zipfile.ZipInfo` default timestamp because `_add_file`
passes no `date_time`. -/
def add_file (sha256 : Digest) (osSep : Char) (st : BuilderState)
    (rel_path : String) (content : Bytes) (st_mode : Nat) : BuilderState :=
  let rel := if osSep ≠ '/' then replaceChar osSep '/' rel_path else rel_path
  let new_mode := normalize_file_permissions st_mode
  let attr0 := new_mode % 65536 * 65536
  let attr := if S_ISDIR st_mode then attr0 + 16 else attr0
  let digest := sha256 ((readChunks 8191 content).flatten)
  let hash_digest := b64HashDigest digest
  { st with
    entries := st.entries ++
      [{ path := rel, dateTime := zipDefaultDateTime, externalAttr := attr,
         data := content }],
    records := st.records ++ [(rel, hash_digest, content.length)] }

/-- `_write_to_zip`: the caller composes `content` into the yielded
buffer; on exit the UTF-8 bytes are hashed and written with the fixed
timestamp `(2016, 1, 1, 0, 0, 0)`.  The `now` argument is the wall clock
at the moment of the call; the source passes the constant `date_time`, so
the clock is never consulted. -/
def write_to_zip (sha256 : Digest) (_now : DateTime) (st : BuilderState)
    (rel_path : String) (content : String) : BuilderState :=
  let b := utf8Encode content
  let hash_digest := b64HashDigest (sha256 b)
  { st with
    entries := st.entries ++
      [{ path := rel_path, dateTime := fixedDateTime, externalAttr := 0,
         data := b }],
    records := st.records ++ [(rel_path, hash_digest, b.length)] }

/-- One manifest line: `path,sha256=hash,size` with a trailing newline. -/
def render_record_line (r : RecordEntry) : String :=
  r.1 ++ ",sha256=" ++ r.2.1 ++ "," ++ toString r.2.2 ++ "\n"

/-- The loop of `write_record`: one `f.write` call per recorded member. -/
def record_lines : List RecordEntry → List String
  | [] => []
  | r :: rest => render_record_line r :: record_lines rest

/-- The full sequence of `f.write` calls made by `write_record`: one line
per recorded member, then the self entry with empty hash and size. -/
def write_record_writes (dist_info : String)
    (records : List RecordEntry) : List String :=
  record_lines records ++ [dist_info ++ "/RECORD,,\n"]

/-- `write_record`: emit the manifest member through `_write_to_zip`. -/
def write_record (sha256 : Digest) (now : DateTime) (st : BuilderState)
    (dist_info : String) : BuilderState :=
  write_to_zip sha256 now st (dist_info ++ "/RECORD")
    (String.join (write_record_writes dist_info st.records))

/-! ### The WHEEL and METADATA members -/

/-- The module-level `wheel_file_template` with its three placeholders. -/
def wheel_file_template (version pure_lib tagStr : String) : String :=
  "Wheel-Version: 1.0\n" ++ "Generator: poetry " ++ version ++ "\n"
    ++ "Root-Is-Purelib: " ++ pure_lib ++ "\n" ++ "Tag: " ++ tagStr ++ "\n"

/-- `_write_wheel_file`: fill the template with the tool version, the
purity flag (`"true"` exactly for `build is None`) and the tag. -/
def write_wheel_file (toolVersion : String) (venv : Venv)
    (pkg : Package) : String :=
  wheel_file_template toolVersion
    (if pkg.build = none then "true" else "false") (tag venv pkg)

/-- Lexicographic code-point comparison of character lists, the order
Python uses to compare strings. -/
def charListLe : List Char → List Char → Bool
  | [], _ => true
  | _ :: _, [] => false
  | a :: as, b :: bs => if a = b then charListLe as bs else decide (a < b)

/-- Python string comparison. -/
def pyStrLe (a b : String) : Bool :=
  charListLe a.data b.data

/-- Insert a string into a sorted list, keeping the sort stable. -/
def insertStr (x : String) : List String → List String
  | [] => [x]
  | y :: ys => if pyStrLe x y then x :: y :: ys else y :: insertStr x ys

/-- Model of the `sorted` builtin on a list of strings. -/
def pySorted (l : List String) : List String :=
  l.foldr insertStr []

/-- `_write_metadata_file`: the mandatory header lines followed by the
optional fields, reproducing each `fp.write` of the source in order.  The
absent home page falls back to `UNKNOWN`; the absent license falls back to
the literal `UNKOWN` exactly as written in the source. -/
def write_metadata_file (meta : Meta) : String :=
  "Metadata-Version: 2.1\n"
    ++ "Name: " ++ meta.name ++ "\n"
    ++ "Version: " ++ meta.version ++ "\n"
    ++ "Summary: " ++ meta.summary ++ "\n"
    ++ "Home-page: " ++ pyOr meta.home_page "UNKNOWN" ++ "\n"
    ++ "License: " ++ pyOr meta.license "UNKOWN" ++ "\n"
    ++ (if pyTruthy meta.keywords then
          "Keywords: " ++ meta.keywords.getD "" ++ "\n" else "")
    ++ (if pyTruthy meta.author then
          "Author: " ++ meta.author.getD "" ++ "\n" else "")
    ++ (if pyTruthy meta.author_email then
          "Author-email: " ++ meta.author_email.getD "" ++ "\n" else "")
    ++ (if pyTruthy meta.requires_python then
          "Requires-Python: " ++ meta.requires_python.getD "" ++ "\n" else "")
    ++ String.join (meta.classifiers.map
          (fun c => "Classifier: " ++ c ++ "\n"))
    ++ String.join ((pySorted meta.provides_extra).map
          (fun e => "Provides-Extra: " ++ e ++ "\n"))
    ++ String.join ((pySorted meta.requires_dist).map
          (fun d => "Requires-Dist: " ++ d ++ "\n"))
    ++ (if pyTruthy meta.description_content_type then
          "Description-Content-Type: "
            ++ meta.description_content_type.getD "" ++ "\n" else "")
    ++ (match meta.description with
        | some d => "\n" ++ d ++ "\n"
        | none => "")

/-! ### The filesystem around `make_in`

The target directory is modelled as an association list from path to file
content; the builder archive produced inside the temporary file is opaque
byte content.  `make_in` additionally emits the ordered trace of
filesystem operations it performs, so ordering claims (rename only after
close) can be stated. -/

/-- A directory: an association list from file name to content. -/
abbrev FileSystem := List (String × Bytes)

/-- Look up a file by name. -/
def fsLookup (fs : FileSystem) (p : String) : Option Bytes :=
  match fs with
  | [] => none
  | (q, b) :: rest => if q = p then some b else fsLookup rest p

/-- Create or overwrite a file. -/
def fsSet (fs : FileSystem) (p : String) (b : Bytes) : FileSystem :=
  match fs with
  | [] => [(p, b)]
  | (q, c) :: rest => if q = p then (p, b) :: rest else (q, c) :: fsSet rest p b

/-- Delete a file, the model of `os.unlink`. -/
def fsRemove (fs : FileSystem) (p : String) : FileSystem :=
  match fs with
  | [] => []
  | (q, c) :: rest => if q = p then fsRemove rest p else (q, c) :: fsRemove rest p

/-- The filesystem operations `make_in` performs, in order. -/
inductive FsEvent where
  | mkstempCreate (path : String)
  | buildArchive
  | closeArchive (path : String)
  | unlinkExisting (path : String)
  | renameFile (src dst : String)
  | unlinkTemp (path : String)
  deriving Repr, DecidableEq

/-- `make_in`: create the temporary file, run the builder into it, and on
success unlink any pre-existing wheel and rename the temporary file to the
final name; on a builder exception unlink the temporary file and let the
exception propagate.  `buildResult` is `some bytes` when `wb.build()`
returns normally having produced the archive bytes, `none` when it
raises.  The result is the success flag, the final filesystem, and the
trace of operations. -/
def make_in (fs : FileSystem) (temp_path wheel_path : String)
    (buildResult : Option Bytes) : Bool × FileSystem × List FsEvent :=
  let fs1 := fsSet fs temp_path []
  match buildResult with
  | none =>
    (false, fsRemove fs1 temp_path,
      [FsEvent.mkstempCreate temp_path, FsEvent.buildArchive,
        FsEvent.closeArchive temp_path, FsEvent.unlinkTemp temp_path])
  | some bytes =>
    let fs2 := fsSet fs1 temp_path bytes
    let existed := (fsLookup fs2 wheel_path).isSome
    let fs3 := if existed then fsRemove fs2 wheel_path else fs2
    let ev1 := if existed then [FsEvent.unlinkExisting wheel_path] else []
    let fs4 := fsSet (fsRemove fs3 temp_path) wheel_path bytes
    (true, fs4,
      [FsEvent.mkstempCreate temp_path, FsEvent.buildArchive,
        FsEvent.closeArchive temp_path] ++ ev1
        ++ [FsEvent.renameFile temp_path wheel_path])

/-! ### The `build` pipeline -/

/-- Close the zip container, the model of `self._wheel_zip.close()`. -/
def close_zip (st : BuilderState) : BuilderState :=
  { st with zipClosed := true }

/-- Run pipeline steps in order, stopping at the first step that raises.
A step returns its successor state together with `some` error message when
it raises, carrying the state it had reached at the raise point. -/
def runSteps (steps : List (BuilderState → BuilderState × Option String))
    (st : BuilderState) : BuilderState × Option String :=
  match steps with
  | [] => (st, none)
  | step :: rest =>
    let (st1, err) := step st
    match err with
    | some e => (st1, some e)
    | none => runSteps rest st1

/-- `build`: run `_build`, `copy_module`, `write_metadata` and
`write_record` under a `try` whose `finally` closes the zip container. -/
def build (steps : List (BuilderState → BuilderState × Option String))
    (st : BuilderState) : BuilderState × Option String :=
  let (st1, err) := runSteps steps st
  (close_zip st1, err)

/-! ### The marker projection of interpreter-version restrictions

Modelled from the spec: the constraint projector that turns the
`python_versions` restriction of a dependency into an environment-marker
expression lives in the sibling builder module, which is not among the
shown sources; only its test is.  Following the spec, the restriction is
parsed, decomposed into maximal contiguous version ranges, and each range
is rendered as a conjunction of `>=` and `<` comparisons, with disjoint
ranges joined by `or`. -/

/-- Split a character list at every occurrence of a separator character. -/
def splitChar (sep : Char) : List Char → List (List Char)
  | [] => [[]]
  | c :: rest =>
    let parts := splitChar sep rest
    if c = sep then [] :: parts
    else match parts with
      | [] => [[c]]
      | p :: ps => (c :: p) :: ps

/-- Parse a decimal numeral. -/
def parseNatChars (l : List Char) : Nat :=
  l.foldl (fun acc c => acc * 10 + (c.toNat - 48)) 0

/-- Strip surrounding spaces. -/
def trimSpaces (l : List Char) : List Char :=
  ((l.dropWhile (fun c => c = ' ')).reverse.dropWhile (fun c => c = ' ')).reverse

/-- Modelled from the spec: the range denoted by one tilde or caret
requirement.  A tilde requirement admits patch-level (or, given only a
major and minor, minor-level) changes; a caret requirement admits changes
up to the next major version (next minor for a zero major). -/
def parseSimpleRequirement (part : List Char) : Option VersionRange :=
  match part with
  | '~' :: rest =>
    (match (splitChar '.' rest).map parseNatChars with
     | [ma, mi] => some (mkVersion ma mi 0, mkVersion ma (mi + 1) 0)
     | [ma, mi, pa] => some (mkVersion ma mi pa, mkVersion ma (mi + 1) 0)
     | _ => none)
  | '^' :: rest =>
    (match (splitChar '.' rest).map parseNatChars with
     | [ma, mi] =>
       if ma = 0 then some (mkVersion 0 mi 0, mkVersion 0 (mi + 1) 0)
       else some (mkVersion ma mi 0, mkVersion (ma + 1) 0 0)
     | [ma, mi, pa] =>
       if ma = 0 then
         if mi = 0 then some (mkVersion 0 0 pa, mkVersion 0 0 (pa + 1))
         else some (mkVersion 0 mi pa, mkVersion 0 (mi + 1) 0)
       else some (mkVersion ma mi pa, mkVersion (ma + 1) 0 0)
     | _ => none)
  | _ => none

/-- Parse a `||`-separated union of requirements. -/
def parsePythonVersions (s : String) : Option (List VersionRange) :=
  let parts := (splitChar '|' s.data).filter (fun p => trimSpaces p ≠ [])
  parts.mapM (fun p => parseSimpleRequirement (trimSpaces p))

/-- Insert a range into a list sorted by lower bound. -/
def insertRange (r : VersionRange) : List VersionRange → List VersionRange
  | [] => [r]
  | x :: xs => if decide (r.1 ≤ x.1) then r :: x :: xs else x :: insertRange r xs

/-- Sort ranges by lower bound. -/
def sortRanges (l : List VersionRange) : List VersionRange :=
  l.foldr insertRange []

/-- Merge a pending range with the sorted ranges that follow it, emitting
it once no later range overlaps or touches it. -/
def mergeInto (r : VersionRange) : List VersionRange → List VersionRange
  | [] => [r]
  | s :: rest =>
    if decide (s.1 ≤ r.2) then mergeInto (r.1, max r.2 s.2) rest
    else r :: mergeInto s rest

/-- Merge overlapping or touching sorted ranges into maximal contiguous
ranges. -/
def mergeSorted : List VersionRange → List VersionRange
  | [] => []
  | r :: rest => mergeInto r rest

/-- Modelled from the spec: decomposition of a constraint into maximal
contiguous version ranges. -/
def maximalRanges (l : List VersionRange) : List VersionRange :=
  mergeSorted (sortRanges l)

/-- Render a version the way marker expressions print it: major and
minor, with the patch component appended only when nonzero. -/
def formatVersion (v : Version) : String :=
  let p : Nat × Nat × Nat := ofLex v |>.map id ofLex
  toString p.1 ++ "." ++ toString p.2.1
    ++ (if p.2.2 = 0 then "" else "." ++ toString p.2.2)

/-- Render one maximal range as a parenthesized conjunction of a `>=` and
a `<` comparison on `python_version`. -/
def renderRange (r : VersionRange) : String :=
  "(python_version >= \"" ++ formatVersion r.1
    ++ "\" and python_version < \"" ++ formatVersion r.2 ++ "\")"

/-- Render a decomposed restriction, joining disjoint ranges with `or`. -/
def renderMarker (ranges : List VersionRange) : String :=
  String.intercalate " or " (ranges.map renderRange)

/-- Modelled from the spec: the marker clause a dependency contributes for
its interpreter-version restriction; a dependency with no restriction
contributes none. -/
def pythonRestrictionMarker (python_versions : Option String) : Option String :=
  match python_versions with
  | none => none
  | some s => (parsePythonVersions s).map (fun l => renderMarker (maximalRanges l))

/-! ### Concrete fixtures used by witnesses and counterexamples -/

/-- A pure-package environment; the environment queries are unused for
pure packages. -/
def venvPure : Venv :=
  { platform := "linux_x86_64", abbr_impl := "cp", impl_ver := "36",
    abi_tag := none }

/-- A pure package whose interpreter constraint admits only the `2.7`
series. -/
def pkg27 : Package :=
  { name := "foo", pretty_name := "foo", build := none,
    python_constraint := [(mkVersion 2 7 0, mkVersion 2 8 0)] }

/-- A pure package whose pretty name holds a space directly before an
underscore. -/
def pkgUnderscore : Package :=
  { name := "a _b", pretty_name := "a _b", build := none,
    python_constraint := [(mkVersion 3 6 0, mkVersion 4 0 0)] }

/-- Metadata with no optional field set and version `1.2.3`. -/
def metaPlain : Meta :=
  { name := "foo", version := "1.2.3", summary := "s", home_page := none,
    license := none, keywords := none, author := none, author_email := none,
    requires_python := none, classifiers := [], provides_extra := [],
    requires_dist := [], description_content_type := none,
    description := none }

/-! ### The claim-side normalization of C7

The claim states the escaping collapses every run of characters outside
`[A-Za-z0-9.]` to a single underscore.  This second definition follows the
claim words, to be compared against `escapeName`, which keeps the full
word class of the source regex. -/

/-- The character class the claim says is kept. -/
def isClaimKept (c : Char) : Bool :=
  c.isAlphanum || c = '.'

/-- The run-collapsing automaton over the claimed character class. -/
def claimedCollapse (inRun : Bool) : List Char → List Char
  | [] => []
  | c :: rest =>
    if isClaimKept c then c :: claimedCollapse false rest
    else if inRun then claimedCollapse true rest
    else '_' :: claimedCollapse true rest

/-- The normalization as the claim words it. -/
def claimedNormalize (s : String) : String :=
  String.mk (claimedCollapse false s.data)

/-! ## Theorems -/

/-! ### Helper lemmas -/

theorem readChunks_flatten (n : Nat) (l : Bytes) :
    (readChunks n l).flatten = l := by
  induction l using readChunks.induct n with
  | case1 => simp [readChunks]
  | case2 x rest ih => simp [readChunks, ih]

theorem record_lines_eq_map (records : List RecordEntry) :
    record_lines records = records.map render_record_line := by
  induction records with
  | nil => rfl
  | cons r rest ih => simp [record_lines, ih]

theorem range_intersects_iff (r s : VersionRange) :
    rangeIntersects r s = true
      ↔ ∃ v : Version, r.1 ≤ v ∧ v < r.2 ∧ s.1 ≤ v ∧ v < s.2 := by
  unfold rangeIntersects
  rw [decide_eq_true_eq]
  constructor
  · intro h
    exact ⟨max r.1 s.1, le_max_left _ _, lt_of_lt_of_le h (min_le_left _ _),
      le_max_right _ _, lt_of_lt_of_le h (min_le_right _ _)⟩
  · rintro ⟨v, h1, h2, h3, h4⟩
    exact lt_of_le_of_lt (max_le h1 h3) (lt_min h2 h4)

theorem allows_any_single_iff (c : VersionConstraint) (a b : Version) :
    allows_any c [(a, b)] = true
      ↔ ∃ v, memConstraint v c ∧ a ≤ v ∧ v < b := by
  unfold allows_any
  rw [List.any_eq_true]
  constructor
  · rintro ⟨r, hr, h⟩
    simp only [List.any_cons, List.any_nil, Bool.or_false] at h
    obtain ⟨v, h1, h2, h3, h4⟩ := (range_intersects_iff r (a, b)).mp h
    exact ⟨v, ⟨r, hr, h1, h2⟩, h3, h4⟩
  · rintro ⟨v, ⟨r, hr, h1, h2⟩, h3, h4⟩
    refine ⟨r, hr, ?_⟩
    simp only [List.any_cons, List.any_nil, Bool.or_false]
    exact (range_intersects_iff r (a, b)).mpr ⟨v, h1, h2, h3, h4⟩

theorem collapseRuns_true_eq (l : List Char) :
    collapseRuns true l
      = collapseRuns false (l.dropWhile (fun d => !isWordOrDot d)) := by
  induction l with
  | nil => rfl
  | cons d ds ih =>
    by_cases h : isWordOrDot d
    · simp [collapseRuns, h, List.dropWhile_cons]
    · simp [collapseRuns, h, List.dropWhile_cons, ih]

/-! ### Claim theorems -/

/-- C1: every member written through the text path `_write_to_zip` gets
the fixed timestamp `(2016, 1, 1, 0, 0, 0)` instead of the wall clock, so
two invocations with identical arguments produce identical member bytes
and identical recorded path, hash, size triples regardless of the clock
value at the time of the call. -/
theorem write_to_zip_fixed_timestamp (sha256 : Digest)
    (now1 now2 : DateTime) (st : BuilderState) (rel_path content : String) :
    write_to_zip sha256 now1 st rel_path content
      = write_to_zip sha256 now2 st rel_path content
    ∧ (write_to_zip sha256 now1 st rel_path content).entries
      = st.entries ++
        [{ path := rel_path, dateTime := (2016, 1, 1, 0, 0, 0),
           externalAttr := 0, data := utf8Encode content }]
    ∧ (write_to_zip sha256 now1 st rel_path content).records
      = st.records ++
        [(rel_path, b64HashDigest (sha256 (utf8Encode content)),
          (utf8Encode content).length)] :=
  ⟨rfl, rfl, rfl⟩

/-- C3: for members added via `_add_file` or `_write_to_zip`, the recorded
hash is the padding-stripped URL-safe base64 encoding of the digest of the
uncompressed content, the recorded size is the byte length of that
content, and recomputing the digest from the stored bytes reproduces the
recorded hash. -/
theorem member_hash_size_roundtrip (sha256 : Digest) (osSep : Char)
    (now : DateTime) (st st2 : BuilderState) (rel_path : String)
    (content : Bytes) (st_mode : Nat) (p s : String) :
    (∃ rp, (add_file sha256 osSep st rel_path content st_mode).records
       = st.records ++ [(rp, b64HashDigest (sha256 content), content.length)])
    ∧ ((add_file sha256 osSep st rel_path content st_mode).entries.getLast?).map
        ZipEntry.data = some content
    ∧ ((add_file sha256 osSep st rel_path content st_mode).entries.getLast?).map
        (fun e => b64HashDigest (sha256 e.data))
      = ((add_file sha256 osSep st rel_path content st_mode).records.getLast?).map
        (fun r => r.2.1)
    ∧ ((add_file sha256 osSep st rel_path content st_mode).entries.getLast?).map
        (fun e => e.data.length)
      = ((add_file sha256 osSep st rel_path content st_mode).records.getLast?).map
        (fun r => r.2.2)
    ∧ (write_to_zip sha256 now st2 p s).records
      = st2.records ++
        [(p, b64HashDigest (sha256 (utf8Encode s)), (utf8Encode s).length)]
    ∧ ((write_to_zip sha256 now st2 p s).entries.getLast?).map ZipEntry.data
      = some (utf8Encode s)
    ∧ ((write_to_zip sha256 now st2 p s).entries.getLast?).map
        (fun e => b64HashDigest (sha256 e.data))
      = ((write_to_zip sha256 now st2 p s).records.getLast?).map
        (fun r => r.2.1) := by
  refine ⟨⟨if osSep ≠ '/' then replaceChar osSep '/' rel_path else rel_path, ?_⟩,
    ?_, ?_, ?_, ?_, ?_, ?_⟩
  all_goals
    simp [add_file, write_to_zip, readChunks_flatten, List.getLast?_concat]

/-- C8: the WHEEL member consists of exactly the four template lines, and
its purity flag is the string `true` exactly when the package has no
native build step (`build is None`). -/
theorem wheel_file_four_lines (toolVersion : String) (venv : Venv)
    (pkg : Package) :
    write_wheel_file toolVersion venv pkg
      = "Wheel-Version: 1.0\n" ++ "Generator: poetry " ++ toolVersion ++ "\n"
        ++ "Root-Is-Purelib: "
        ++ (if pkg.build = none then "true" else "false") ++ "\n"
        ++ "Tag: " ++ tag venv pkg ++ "\n"
    ∧ ((if pkg.build = none then "true" else "false") = "true"
        ↔ pkg.build = none) := by
  refine ⟨rfl, ?_, ?_⟩
  · intro h
    by_cases hb : pkg.build = none
    · exact hb
    · rw [if_neg hb] at h
      exact absurd h (by decide)
  · intro h
    rw [if_pos h]

/-- C9: with no license set, the source writes the line
`License: UNKOWN`, not the `License: UNKNOWN` the claim requires; the
remaining mandatory header lines are as claimed. -/
theorem metadata_license_unkown_typo :
    write_metadata_file metaPlain
      = "Metadata-Version: 2.1\nName: foo\nVersion: 1.2.3\nSummary: s\n"
        ++ "Home-page: UNKNOWN\nLicense: UNKOWN\n"
    ∧ write_metadata_file metaPlain
      ≠ "Metadata-Version: 2.1\nName: foo\nVersion: 1.2.3\nSummary: s\n"
        ++ "Home-page: UNKNOWN\nLicense: UNKNOWN\n" :=
  ⟨rfl, by decide⟩

/-- C4: the restriction `~2.7 || ^3.6` decomposes into the maximal ranges
`[2.7, 2.8)` and `[3.6, 4.0)` and renders as the claimed disjunction of
bound conjunctions, while an absent restriction contributes no marker
clause. -/
theorem marker_decomposition_example :
    pythonRestrictionMarker (some "~2.7 || ^3.6")
      = some ("(python_version >= \"2.7\" and python_version < \"2.8\")"
          ++ " or (python_version >= \"3.6\" and python_version < \"4.0\")")
    ∧ pythonRestrictionMarker none = none :=
  ⟨rfl, rfl⟩

/-- C7 counterexample: with pretty name `a _b` the source keeps the
underscore as a word character and replaces the space around it, giving
`a__b-...`, while collapsing the full run ` _` outside `[A-Za-z0-9.]` to
one underscore as the claim states would give `a_b-...`. -/
theorem wheel_filename_counterexample :
    wheel_filename venvPure pkgUnderscore metaPlain
      = "a__b-1.2.3-py3-none-any.whl"
    ∧ claimedNormalize "a _b" ++ "-" ++ claimedNormalize "1.2.3" ++ "-"
        ++ tag venvPure pkgUnderscore ++ ".whl"
      = "a_b-1.2.3-py3-none-any.whl"
    ∧ "a__b-1.2.3-py3-none-any.whl" ≠ "a_b-1.2.3-py3-none-any.whl" :=
  ⟨rfl, rfl, by decide⟩

/-- C7 amended: the filename is the escaped pretty name, escaped version
and tag joined by dashes with the `.whl` extension, where escaping
collapses every run of characters outside the word-and-dot class
`[A-Za-z0-9._]` to a single underscore: a kept character is copied and a
non-kept character swallows the whole non-kept run that follows it.  The
example of the claim still holds. -/
theorem wheel_filename_amended (venv : Venv) (pkg : Package) (meta : Meta) :
    wheel_filename venv pkg meta
      = escapeName pkg.pretty_name ++ "-" ++ escapeName meta.version ++ "-"
        ++ tag venv pkg ++ ".whl"
    ∧ escapeName "" = ""
    ∧ (∀ (c : Char) (rest : List Char),
        escapeName (String.mk (c :: rest))
          = if isWordOrDot c
            then String.mk (c :: (escapeName (String.mk rest)).data)
            else String.mk ('_' ::
              (escapeName (String.mk
                (rest.dropWhile (fun d => !isWordOrDot d)))).data))
    ∧ escapeName "My Package!" = "My_Package_" := by
  refine ⟨rfl, rfl, ?_, rfl⟩
  intro c rest
  by_cases h : isWordOrDot c
  · simp [escapeName, collapseRuns, h]
  · simp [escapeName, collapseRuns, h, collapseRuns_true_eq]

/-- C2: the manifest write sequence of `write_record` has one line per
previously recorded member, in recording order, each rendered as
`path,sha256=hash,size`, with the self entry `dist-info/RECORD,,` written
last; the member content is the concatenation of exactly these lines. -/
theorem write_record_manifest (dist_info : String)
    (records : List RecordEntry) :
    (write_record_writes dist_info records).length = records.length + 1
    ∧ (∀ i, i < records.length →
        (write_record_writes dist_info records)[i]?
          = (records[i]?).map render_record_line)
    ∧ (write_record_writes dist_info records)[records.length]?
      = some (dist_info ++ "/RECORD,,\n")
    ∧ (write_record_writes dist_info records).getLast?
      = some (dist_info ++ "/RECORD,,\n")
    ∧ ∀ (sha256 : Digest) (now : DateTime) (st : BuilderState),
        st.records = records →
        ((write_record sha256 now st dist_info).entries.getLast?).map
            ZipEntry.data
          = some (utf8Encode
              (String.join (write_record_writes dist_info records))) := by
  refine ⟨?_, ?_, ?_, ?_, ?_⟩
  · simp [write_record_writes, record_lines_eq_map]
  · intro i hi
    rw [write_record_writes, record_lines_eq_map,
      List.getElem?_append_left (by simpa using hi), List.getElem?_map]
  · rw [write_record_writes, record_lines_eq_map]
    rw [show records.length = (records.map render_record_line).length by simp]
    exact List.getElem?_concat_length _ _
  · simp [write_record_writes]
  · intro sha256 now st hst
    simp [write_record, write_to_zip, hst, List.getLast?_concat]

/-- C2 witness: the manifest facts evaluated on a one-member record
list. -/
theorem write_record_manifest_witness :
    (write_record_writes "p-1.dist-info" [("a", "h", 3)])[0]?
      = some "a,sha256=h,3\n"
    ∧ (write_record_writes "p-1.dist-info" [("a", "h", 3)])[1]?
      = some "p-1.dist-info/RECORD,,\n" := by
  have h := write_record_manifest "p-1.dist-info" [("a", "h", 3)]
  exact ⟨(h.2.1 0 (by decide)).trans rfl, h.2.2.1⟩

/-- C5: for a package with no native build step the tag is
`py2.py3-none-any` exactly when the declared interpreter constraint
admits some version in `[2.0.0, 3.0.0)`, and `py3-none-any` otherwise. -/
theorem tag_pure_python2 (venv : Venv) (pkg : Package)
    (hb : pkg.build = none) :
    (tag venv pkg = "py2.py3-none-any"
      ↔ ∃ v, memConstraint v pkg.python_constraint
          ∧ mkVersion 2 0 0 ≤ v ∧ v < mkVersion 3 0 0)
    ∧ (tag venv pkg = "py2.py3-none-any" ∨ tag venv pkg = "py3-none-any") := by
  have htag : tag venv pkg
      = if supports_python2 pkg then "py2.py3-none-any" else "py3-none-any" := by
    rw [tag, hb]
    by_cases hs : supports_python2 pkg <;> simp [pyTruthy, hs] <;> rfl
  have hiff := allows_any_single_iff pkg.python_constraint
    (mkVersion 2 0 0) (mkVersion 3 0 0)
  by_cases hs : supports_python2 pkg
  · rw [htag, if_pos hs]
    refine ⟨⟨fun _ => ?_, fun _ => rfl⟩, Or.inl rfl⟩
    exact hiff.mp hs
  · rw [htag, if_neg hs]
    refine ⟨⟨fun h => absurd h (by decide), fun h => ?_⟩, Or.inr rfl⟩
    exact absurd (hiff.mpr h) hs

/-- C5 witness: a pure package admitting only the `2.7` series gets the
tag `py2.py3-none-any`. -/
theorem tag_pure_python2_witness :
    tag venvPure pkg27 = "py2.py3-none-any" := by
  have h := tag_pure_python2 venvPure pkg27 rfl
  exact h.1.mpr ⟨mkVersion 2 7 0,
    ⟨(mkVersion 2 7 0, mkVersion 2 8 0), by simp [pkg27], by decide, by decide⟩,
    by decide, by decide⟩

theorem fsLookup_fsSet_self (fs : FileSystem) (p : String) (b : Bytes) :
    fsLookup (fsSet fs p b) p = some b := by
  induction fs with
  | nil => simp [fsSet, fsLookup]
  | cons hd rest ih =>
    obtain ⟨q, c⟩ := hd
    by_cases h : q = p
    · simp [fsSet, fsLookup, h]
    · simp [fsSet, fsLookup, h, ih]

theorem fsLookup_fsSet_other (fs : FileSystem) (p q : String) (b : Bytes)
    (h : p ≠ q) : fsLookup (fsSet fs p b) q = fsLookup fs q := by
  induction fs with
  | nil => simp [fsSet, fsLookup, h]
  | cons hd rest ih =>
    obtain ⟨x, c⟩ := hd
    by_cases hx : x = p
    · subst hx
      simp [fsSet, fsLookup, h]
    · simp [fsSet, fsLookup, hx, ih]

theorem fsLookup_fsRemove_self (fs : FileSystem) (p : String) :
    fsLookup (fsRemove fs p) p = none := by
  induction fs with
  | nil => simp [fsRemove, fsLookup]
  | cons hd rest ih =>
    obtain ⟨q, c⟩ := hd
    by_cases h : q = p
    · simp [fsRemove, h, ih]
    · simp [fsRemove, fsLookup, h, ih]

theorem fsLookup_fsRemove_other (fs : FileSystem) (p q : String)
    (h : p ≠ q) : fsLookup (fsRemove fs p) q = fsLookup fs q := by
  induction fs with
  | nil => simp [fsRemove]
  | cons hd rest ih =>
    obtain ⟨x, c⟩ := hd
    by_cases hx : x = p
    · subst hx
      simp [fsRemove, fsLookup, h, ih]
    · simp [fsRemove, fsLookup, hx, ih]

/-- C6: when the builder raises after the temporary file was created, the
temporary file is removed, the final destination keeps whatever was there
before, and no rename happens; on success the final name holds the new
archive, the temporary name is gone, and the rename is the last operation,
after the archive was closed. -/
theorem make_in_atomic (fs : FileSystem) (temp_path wheel_path : String)
    (hne : temp_path ≠ wheel_path) :
    ((make_in fs temp_path wheel_path none).1 = false
      ∧ fsLookup (make_in fs temp_path wheel_path none).2.1 temp_path = none
      ∧ fsLookup (make_in fs temp_path wheel_path none).2.1 wheel_path
        = fsLookup fs wheel_path
      ∧ FsEvent.renameFile temp_path wheel_path
        ∉ (make_in fs temp_path wheel_path none).2.2)
    ∧ ∀ bytes,
        (make_in fs temp_path wheel_path (some bytes)).1 = true
        ∧ fsLookup (make_in fs temp_path wheel_path (some bytes)).2.1 wheel_path
          = some bytes
        ∧ fsLookup (make_in fs temp_path wheel_path (some bytes)).2.1 temp_path
          = none
        ∧ (make_in fs temp_path wheel_path (some bytes)).2.2.getLast?
          = some (FsEvent.renameFile temp_path wheel_path)
        ∧ FsEvent.closeArchive temp_path
          ∈ (make_in fs temp_path wheel_path (some bytes)).2.2.dropLast := by
  constructor
  · refine ⟨rfl, ?_, ?_, ?_⟩
    · simp [make_in, fsLookup_fsRemove_self]
    · simp only [make_in]
      rw [fsLookup_fsRemove_other _ _ _ hne, fsLookup_fsSet_other _ _ _ _ hne]
    · simp [make_in]
  · intro bytes
    refine ⟨rfl, ?_, ?_, ?_, ?_⟩
    · simp only [make_in]
      exact fsLookup_fsSet_self _ _ _
    · simp only [make_in]
      rw [fsLookup_fsSet_other _ _ _ _ (Ne.symm hne), fsLookup_fsRemove_self]
    · simp only [make_in]
      rw [List.getLast?_concat]
    · simp only [make_in]
      rw [List.dropLast_concat]
      simp

/-- C6 witness: on an empty directory with distinct temporary and final
names, a failed build leaves neither file and a successful build installs
the archive bytes under the final name only. -/
theorem make_in_atomic_witness :
    fsLookup (make_in [] "tmpabc.whl" "pkg-1.0-py3-none-any.whl" none).2.1
        "tmpabc.whl" = none
    ∧ fsLookup (make_in [] "tmpabc.whl" "pkg-1.0-py3-none-any.whl" none).2.1
        "pkg-1.0-py3-none-any.whl" = none
    ∧ fsLookup
        (make_in [] "tmpabc.whl" "pkg-1.0-py3-none-any.whl" (some [1, 2])).2.1
        "pkg-1.0-py3-none-any.whl" = some [1, 2] := by
  have h := make_in_atomic [] "tmpabc.whl" "pkg-1.0-py3-none-any.whl"
    (by decide)
  exact ⟨h.1.2.1, h.1.2.2.1.trans rfl, (h.2 [1, 2]).2.1⟩

/-- C10: whatever the pipeline steps do and whether or not one of them
raises, the state `build` returns has the zip container closed, and the
error outcome of the pipeline is passed through unchanged. -/
theorem build_closes_zip
    (steps : List (BuilderState → BuilderState × Option String))
    (st : BuilderState) :
    ((build steps st).1).zipClosed = true
    ∧ (build steps st).2 = (runSteps steps st).2 := by
  cases hrun : runSteps steps st with
  | mk st1 err => simp [build, hrun, close_zip]
